import Mathlib

/-!
Shallow embedding of `sphinxcontrib/versioning/lib.py` (a configuration
object and a disposable-virtual-environment helper) for verifying the
natural-language specification against the code.

External effects are modelled explicitly:
* subprocess invocations go through an oracle `World.run : String → ProcOut`
  keyed by the full command string (the code builds each command with
  `str.format` and `shlex.split`; we keep the formatted string);
* the filesystem existence test `os.path.exists` is the oracle
  `World.pathExists`;
* mutable object state (the `editable_installs` dict) is threaded as an
  explicit state `St`, together with an observation log `trace` of every
  command handed to a subprocess, in execution order;
* Python exceptions become the `PyErr` inductive, raised through
  `Except`/pair returns so that mutations made before a raise persist,
  as they do in Python.
-/

set_option autoImplicit false

/-- Python runtime values that appear as Config field values. -/
inductive PyVal where
  | vBool (b : Bool)
  | vStr (s : String)
  | vNone
  | vTup (l : List String)
  | vInt (n : Int)
deriving Repr, DecidableEq

/-- Python exceptions raised by the modelled code. -/
inductive PyErr where
  | calledProcessError (cmd : String) (output : String)
  | indexError
  | ioError (errno : Nat) (msg : String)
  | attributeError (msg : String)
deriving Repr, DecidableEq

/-- A single-quote character, written via its code point. -/
def squo : String := String.singleton (Char.ofNat 39)

/-- A double-quote character, written via its code point. -/
def dquo : String := String.singleton (Char.ofNat 34)

/-! ### Python dict, modelled as an association list with unique keys -/

/-- Lookup in a Python dict (`d[k]` / `d.get(k)`). -/
def dictGet {α : Type} (d : List (String × α)) (k : String) : Option α :=
  match d with
  | [] => none
  | (k2, v) :: rest => if k2 = k then some v else dictGet rest k

/-- Membership test (`k in d`). -/
def dictContains {α : Type} (d : List (String × α)) (k : String) : Bool :=
  match d with
  | [] => false
  | (k2, _) :: rest => k2 = k || dictContains rest k

/-- Assignment `d[k] = v`: update in place when the key exists, else append
(Python dicts preserve insertion order). -/
def dictInsert {α : Type} (d : List (String × α)) (k : String) (v : α) :
    List (String × α) :=
  match d with
  | [] => [(k, v)]
  | (k2, v2) :: rest =>
    if k2 = k then (k, v) :: rest else (k2, v2) :: dictInsert rest k v

/-- Deletion `del d[k]` guarded by `if k in d`, hence a no-op on a missing
key (keys are unique, so removing every match removes the one entry). -/
def dictErase {α : Type} (d : List (String × α)) (k : String) :
    List (String × α) :=
  match d with
  | [] => []
  | (k2, v) :: rest =>
    if k2 = k then dictErase rest k else (k2, v) :: dictErase rest k

/-! ### String and path helpers (POSIX semantics, as used by the code) -/

/-- Test whether the first list is a prefix of the second. -/
def isPrefixChars : List Char → List Char → Bool
  | [], _ => true
  | _ :: _, [] => false
  | a :: as, b :: bs => a = b && isPrefixChars as bs

/-- Python `str.splitlines` on newline-separated text (subprocess output in
this code is newline-separated UTF-8 text): split at every newline, no
trailing empty piece. -/
def splitLinesAux : List Char → List Char → List String
  | [], [] => []
  | [], cur => [⟨cur.reverse⟩]
  | c :: rest, cur =>
    if c = '\n' then ⟨cur.reverse⟩ :: splitLinesAux rest []
    else splitLinesAux rest (c :: cur)

/-- Python `str.splitlines` of a string. -/
def splitLines (s : String) : List String :=
  splitLinesAux s.data []

/-- Substring occurrence test on character lists. -/
def containsSub : List Char → List Char → Bool
  | _, [] => true
  | [], _ :: _ => false
  | c :: rest, sub => isPrefixChars sub (c :: rest) || containsSub rest sub

/-- Python `sub in s`. -/
def strContains (s sub : String) : Bool :=
  containsSub s.data sub.data

/-- Greedy left-to-right split on a nonempty separator, with enough fuel to
scan the whole list (each step consumes at least one character, so fuel
equal to the length is never exhausted). -/
def splitOnCharsAux (sep : List Char) : Nat → List Char → List Char →
    List (List Char)
  | _, [], cur => [cur.reverse]
  | 0, rest, cur => [cur.reverse ++ rest]
  | fuel + 1, c :: rest, cur =>
    if isPrefixChars sep (c :: rest) then
      cur.reverse :: splitOnCharsAux sep fuel (List.drop sep.length (c :: rest)) []
    else
      splitOnCharsAux sep fuel rest (c :: cur)

/-- Python `s.split(sep)` for a nonempty separator. -/
def pySplit (s sep : String) : List String :=
  if sep.data = [] then [s]
  else (splitOnCharsAux sep.data s.data.length s.data []).map (fun l => ⟨l⟩)

/-- Python `s.strip(c)` for a one-character strip set: remove every leading
and trailing occurrence of `c`. -/
def pyStrip (s : String) (c : Char) : String :=
  ⟨((s.data.dropWhile (· == c)).reverse.dropWhile (· == c)).reverse⟩

/-- POSIX `os.path.basename`: the part after the last slash. -/
def basename (p : String) : String :=
  ⟨(p.data.reverse.takeWhile (· ≠ '/')).reverse⟩

/-- POSIX `os.path.dirname`: everything before the last slash, with
trailing slashes stripped unless the head is all slashes. -/
def dirname (p : String) : String :=
  let rest := p.data.reverse.dropWhile (· ≠ '/')
  if rest.isEmpty then ""
  else
    let stripped := rest.dropWhile (· == '/')
    if stripped.isEmpty then ⟨rest.reverse⟩ else ⟨stripped.reverse⟩

/-- POSIX `os.path.join a b` for the cases exercised here. -/
def joinPath (a b : String) : String :=
  if b.data.head? = some '/' then b
  else if a = "" ∨ a.data.getLast? = some '/' then a ++ b
  else a ++ "/" ++ b

/-! ### Config (`lib.py` lines 20-131) -/

/-- State of a `Config` object: the dynamically-set schema attributes (in
`__init__` assignment order), the `_already_set` set and the
`_program_state` dict. -/
structure Config where
  fields : List (String × PyVal)
  already_set : List String
  program_state : List (String × PyVal)
deriving Repr, DecidableEq

/-- The attribute assignments performed by `Config.__init__`. -/
def initFields : List (String × PyVal) :=
  [("banner_greatest_tag", .vBool false),
   ("banner_recent_tag", .vBool false),
   ("greatest_tag", .vBool false),
   ("invert", .vBool false),
   ("no_colors", .vBool false),
   ("no_local_conf", .vBool false),
   ("recent_tag", .vBool false),
   ("show_banner", .vBool false),
   ("banner_main_ref", .vStr "master"),
   ("chdir", .vNone),
   ("git_root", .vNone),
   ("local_conf", .vNone),
   ("priority", .vNone),
   ("push_remote", .vStr "origin"),
   ("root_ref", .vStr "master"),
   ("grm_exclude", .vTup []),
   ("overflow", .vTup []),
   ("sort", .vTup []),
   ("whitelist_branches", .vTup []),
   ("whitelist_tags", .vTup []),
   ("verbose", .vInt 0)]

/-- A fresh `Config()`. -/
def Config.init : Config :=
  { fields := initFields, already_set := [], program_state := [] }

/-- Non-schema attributes of a `Config` instance that `hasattr` also sees:
the two private instance attributes and the methods defined on the class
(inherited `object` dunders are omitted; no claim distinguishes them, and
both outcomes are an `AttributeError` from `update`). -/
def configClassAttrs : List String :=
  ["_already_set", "_program_state", "update", "pop", "from_context",
   "__contains__", "__iter__", "__repr__", "__setitem__", "__init__"]

/-- Python `hasattr(self, key)` on a `Config` instance. -/
def Config.hasAttr (c : Config) (key : String) : Bool :=
  dictContains c.fields key || key ∈ configClassAttrs

/-- Attribute assignment `setattr(self, key, value)` followed by
`self._already_set.add(key)`, as done at the end of each loop iteration of
`Config.update`. -/
def Config.setField (c : Config) (key : String) (v : PyVal) : Config :=
  { c with
    fields := dictInsert c.fields key v,
    already_set :=
      if key ∈ c.already_set then c.already_set else c.already_set ++ [key] }

/-- Error message of `update` for a name `hasattr` does not know. -/
def noAttrMsg (key : String) : String :=
  squo ++ "Config" ++ squo ++ " object has no attribute " ++ squo ++ key ++ squo

/-- Error message of `update` for a non-schema attribute. -/
def noAssignMsg (key : String) : String :=
  squo ++ "Config" ++ squo ++ " object does not support item assignment on " ++
    squo ++ key ++ squo

/-- Error message of `update` for re-assignment without permission. -/
def reassignMsg (key : String) : String :=
  squo ++ "Config" ++ squo ++ " object does not support item re-assignment on " ++
    squo ++ key ++ squo

/-- The loop body of `Config.update` over the remaining `params` items.
`valid` is the set of schema field names, computed once before the loop
from `{i[0] for i in self}`. On a raise, the configuration mutated so far
is returned alongside the error, matching in-place mutation in Python. -/
def Config.updateLoop (valid : List String) (c : Config)
    (params : List (String × PyVal)) (ignore_set overwrite : Bool) :
    Option PyErr × Config :=
  match params with
  | [] => (none, c)
  | (key, value) :: rest =>
    if ¬ c.hasAttr key then (some (.attributeError (noAttrMsg key)), c)
    else if key ∉ valid then (some (.attributeError (noAssignMsg key)), c)
    else if key ∈ c.already_set then
      if ignore_set then Config.updateLoop valid c rest ignore_set overwrite
      else if ¬ overwrite then (some (.attributeError (reassignMsg key)), c)
      else Config.updateLoop valid (c.setField key value) rest ignore_set overwrite
    else Config.updateLoop valid (c.setField key value) rest ignore_set overwrite

/-- The schema field names: first components yielded by `__iter__`, i.e.
the non-underscore, non-callable attributes. In this model these are
exactly the keys of `fields`. -/
def Config.validNames (c : Config) : List String :=
  c.fields.map Prod.fst

/-- `Config.update(params, ignore_set, overwrite)`. -/
def Config.update (c : Config) (params : List (String × PyVal))
    (ignore_set overwrite : Bool) : Option PyErr × Config :=
  Config.updateLoop c.validNames c params ignore_set overwrite

/-! ### TempDir (`lib.py` lines 146-175) -/

/-- Filesystem as an existence predicate on paths (`os.path.exists`). -/
def FS : Type := String → Bool

/-- `TempDir.cleanup`: `shutil.rmtree(self.name, onerror=chmod-and-unlink)`
followed by an existence check that raises `IOError(17, ...)` when the path
survived. The recursive delete together with its permission-normalizing
`onerror` handler is the oracle `rmtree`, a filesystem transformer whose
outcome (full or partial deletion) depends on on-disk permissions. The pair
returned is (raised exception if any, filesystem afterwards). -/
def TempDir.cleanup (rmtree : FS → String → FS) (name : String) (fs : FS) :
    Option PyErr × FS :=
  let fs2 := rmtree fs name
  if fs2 name then
    (some (.ioError 17 ("File exists: " ++ squo ++ name ++ squo)), fs2)
  else (none, fs2)

/-- Python `with TempDir() as d: body` semantics: `__enter__` hands `body`
the directory name; `__exit__` runs exactly once afterwards, whether or not
`body` raised, and consists of the single call `self.cleanup()`; an
exception raised by `cleanup` propagates in place of the body outcome. The
body returns its outcome together with the filesystem it leaves behind. -/
def TempDir.withScope (rmtree : FS → String → FS) (name : String) (fs : FS)
    (body : String → FS → Except PyErr Unit × FS) : Except PyErr Unit × FS :=
  let r := body name fs
  match TempDir.cleanup rmtree name r.2 with
  | (some e, fs2) => (.error e, fs2)
  | (none, fs2) => (r.1, fs2)

/-! ### TempEnv (`lib.py` lines 177-304) -/

/-- Outcome of one external process: exit code and captured output, decoded
as text. -/
structure ProcOut where
  exitCode : Nat
  output : String
deriving Repr, DecidableEq

/-- The read-only environment of a `TempEnv` instance: its interpreter
executable path (`self.env_exe`, fixed at construction) and the oracles for
the filesystem and for subprocess execution, keyed by the full formatted
command string. -/
structure World where
  envExe : String
  pathExists : String → Bool
  run : String → ProcOut

/-- Mutable state of a `TempEnv`: the `editable_installs` dict mapping
package name to its `setup.py` script path, plus an observation log of
every command handed to a subprocess, in execution order (the log is an
embedding device, not program state). -/
structure St where
  editable_installs : List (String × String)
  trace : List String
deriving Repr, DecidableEq

/-- `subprocess.check_output` on a formatted command string: logs the
command, returns the captured output on exit code zero, and raises
`CalledProcessError` carrying the command and its captured output
otherwise. -/
def checkOutput (w : World) (s : St) (cmd : String) : Except PyErr String × St :=
  let r := w.run cmd
  let s2 : St := { s with trace := s.trace ++ [cmd] }
  if r.exitCode = 0 then (.ok r.output, s2)
  else (.error (.calledProcessError cmd r.output), s2)

/-- `TempEnv.run_python`: prefix the command with the environment
executable and run it. -/
def run_python (w : World) (s : St) (cmd_str : String) :
    Except PyErr String × St :=
  checkOutput w s (w.envExe ++ " " ++ cmd_str)

/-- `TempEnv.is_installed`: run `pip show`; a `CalledProcessError` with
empty captured output is caught and treated as output, any other
`CalledProcessError` is re-raised; the result is whether the output is
non-empty. -/
def is_installed (w : World) (s : St) (pkg_name : String) :
    Except PyErr Bool × St :=
  match run_python w s ("-m pip show " ++ pkg_name) with
  | (.ok r, s2) => (.ok (r.length > 0), s2)
  | (.error (.calledProcessError c out), s2) =>
    if out.length > 0 then (.error (.calledProcessError c out), s2)
    else (.ok (out.length > 0), s2)
  | (.error e, s2) => (.error e, s2)

/-- `_name_from_setup_py`: run `python <script> --name` with the ambient
interpreter and take the first output line (`IndexError` when there is
none). -/
def name_from_setup_py (w : World) (s : St) (script_name : String) :
    Except PyErr String × St :=
  match checkOutput w s ("python " ++ script_name ++ " --name") with
  | (.ok r, s2) =>
    match splitLines r with
    | [] => (.error .indexError, s2)
    | line :: _ => (.ok line, s2)
  | (.error e, s2) => (.error e, s2)

/-- `_version_from_setup_py`: run `python <script> --version`; the last
output line is the normalized version; when the output has several lines
and the first contains `Normalizing`, the raw version is the piece of the
first line after `Normalizing` and before ` to `, stripped of double then
single quotes when present. -/
def version_from_setup_py (w : World) (s : St) (script_name : String) :
    Except PyErr (String × String) × St :=
  match checkOutput w s ("python " ++ script_name ++ " --version") with
  | (.error e, s2) => (.error e, s2)
  | (.ok r, s2) =>
    let lines := splitLines r
    match lines.getLast? with
    | none => (.error .indexError, s2)
    | some normalized_version =>
      if lines.length = 1 ∨ ¬ strContains (lines.headD "") "Normalizing" then
        (.ok (normalized_version, normalized_version), s2)
      else
        let v1 := ((pySplit ((pySplit (lines.headD "") "Normalizing").getD 1 "")
          " to ").headD "")
        let v2 := if strContains v1 dquo then pyStrip v1 (Char.ofNat 34) else v1
        let v3 := if strContains v2 squo then pyStrip v2 (Char.ofNat 39) else v2
        (.ok (normalized_version, v3), s2)

/-- `TempEnv.uninstall_editable`: run `pip uninstall -y <name>`, then delete
the name from `editable_installs` when present. -/
def uninstall_editable (w : World) (s : St) (pkg_name : String) :
    Except PyErr Unit × St :=
  match run_python w s ("-m pip uninstall -y " ++ pkg_name) with
  | (.ok _, s2) =>
    (.ok (), { s2 with editable_installs := dictErase s2.editable_installs pkg_name })
  | (.error e, s2) => (.error e, s2)

/-- Script resolution at the top of `pip_install_editable`: a path whose
basename is not `setup.py` is a package root and the script is
`<path>/setup.py`; otherwise the path is the script itself. -/
def resolveScript (path : String) : String :=
  if basename path ≠ "setup.py" then joinPath path "setup.py" else path

/-- Directory resolution at the top of `pip_install_editable`: the path
itself when it is a package root, else the dirname of the script. -/
def resolvePath (path : String) : String :=
  if basename path ≠ "setup.py" then path else dirname path

/-- `TempEnv.pip_install_editable`: resolve the script; return `none`
without touching any state when the script does not exist on disk;
otherwise extract the package name from the script, uninstall it first when
`is_installed` reports it, run the editable install, record name to script
in `editable_installs`, and return the name. -/
def pip_install_editable (w : World) (s : St) (path0 : String) :
    Except PyErr (Option String) × St :=
  let script_name := resolveScript path0
  let path := resolvePath path0
  if ¬ w.pathExists script_name then (.ok none, s)
  else
    match name_from_setup_py w s script_name with
    | (.error e, s2) => (.error e, s2)
    | (.ok pkg_name, s2) =>
      match is_installed w s2 pkg_name with
      | (.error e, s3) => (.error e, s3)
      | (.ok installed, s3) =>
        match (if installed then uninstall_editable w s3 pkg_name
               else (.ok (), s3)) with
        | (.error e, s4) => (.error e, s4)
        | (.ok _, s4) =>
          match run_python w s4 ("-m pip install -e " ++ path) with
          | (.error e, s5) => (.error e, s5)
          | (.ok _, s5) =>
            (.ok (some pkg_name),
             { s5 with editable_installs :=
                dictInsert s5.editable_installs pkg_name script_name })

/-- Handle yielded by the scoped editable-install acquisition, exposing the
resolved source path, the resolved script path, the package name (none on
the skip outcome) and the installed state. -/
structure PackageInstallHandle where
  path : String
  script_name : String
  pkg_name : Option String
  is_installed : Bool
deriving Repr, DecidableEq

/-- Modelled from the spec: the scoped acquisition `pip_install_context` /
`open_editable_install` is invoked by the tests of the repository but its
definition is missing from the source. Following the spec, it calls
`pip_install_editable`, wraps the result in a `PackageInstallHandle`
exposing path, script, name and installed state, yields it to the caller
body, and on every scope exit, including when the body raised, calls
`uninstall_editable`, unless the install returned the null or skip result,
in which case no uninstall is attempted. -/
def pip_install_context (w : World) (s : St) (path : String)
    (body : PackageInstallHandle → St → Except PyErr Unit × St) :
    Except PyErr Unit × St :=
  match pip_install_editable w s path with
  | (.error e, s2) => (.error e, s2)
  | (.ok optName, s2) =>
    let handle : PackageInstallHandle :=
      { path := resolvePath path, script_name := resolveScript path,
        pkg_name := optName, is_installed := optName.isSome }
    let r := body handle s2
    match optName with
    | none => r
    | some pkg =>
      match uninstall_editable w r.2 pkg with
      | (.error e, s4) => (.error e, s4)
      | (.ok _, s4) => (r.1, s4)

/-- Formalisation of the spec sentence on the version-report output format,
stated on the list of output lines: when the first line carries no
`Normalizing` notice or the output is a single line, both components are
the final line; otherwise the normalized component is the final line and
the raw component is the piece of the first line between `Normalizing` and
` to `, with surrounding double or single quotes stripped. -/
def reportedVersionSpec (lines : List String) : String × String :=
  let normalized := lines.getLastD ""
  if lines.length = 1 ∨ ¬ strContains (lines.headD "") "Normalizing" then
    (normalized, normalized)
  else
    let between := ((pySplit ((pySplit (lines.headD "") "Normalizing").getD 1 "")
      " to ").headD "")
    let b2 := if strContains between dquo then pyStrip between (Char.ofNat 34)
      else between
    let b3 := if strContains b2 squo then pyStrip b2 (Char.ofNat 39) else b2
    (normalized, b3)

/-- The command string `run_python` builds for `pip show <pkg>`. -/
def pipShowCmd (w : World) (pkg : String) : String :=
  w.envExe ++ " " ++ ("-m pip show " ++ pkg)

/-- The command string `run_python` builds for `pip uninstall -y <pkg>`. -/
def pipUninstallCmd (w : World) (pkg : String) : String :=
  w.envExe ++ " " ++ ("-m pip uninstall -y " ++ pkg)

/-- The command string `run_python` builds for `pip install -e <path>`. -/
def pipInstallECmd (w : World) (path : String) : String :=
  w.envExe ++ " " ++ ("-m pip install -e " ++ path)

/-- The command string for the "report name" mode of a setup script. -/
def nameCmd (script : String) : String :=
  "python " ++ script ++ " --name"

/-- The command string for the "report version" mode of a setup script. -/
def versionCmd (script : String) : String :=
  "python " ++ script ++ " --version"

/-- Concrete environment state used by the witnesses. -/
def st0 : St := { editable_installs := [], trace := [] }

/-- Concrete world where every command fails with empty output and no path
exists. -/
def w0 : World :=
  { envExe := "venv/bin/python", pathExists := fun _ => false,
    run := fun _ => { exitCode := 1, output := "" } }

/-- Concrete world for the editable-install success path: the script
exists, its report-name mode prints `mypkg`, and every pip command
succeeds with empty output. -/
def w3 : World :=
  { envExe := "venv/bin/python", pathExists := fun _ => true,
    run := fun cmd =>
      if cmd = "python pkg/setup.py --name" then { exitCode := 0, output := "mypkg\n" }
      else { exitCode := 0, output := "" } }

/-- Concrete world whose version report is a single line. -/
def w9 : World :=
  { envExe := "venv/bin/python", pathExists := fun _ => true,
    run := fun _ => { exitCode := 0, output := "1.2.3\n" } }

/-- Concrete recursive-delete oracle that removes exactly the named path. -/
def rmtree0 : FS → String → FS :=
  fun fs n p => if p = n then false else fs p

/-- Concrete filesystem where every path exists. -/
def fs0 : FS := fun _ => true

/-! ### Helper lemmas -/

theorem dictGet_insert_self {α : Type} (d : List (String × α)) (k : String)
    (v : α) : dictGet (dictInsert d k v) k = some v := by
  induction d with
  | nil => simp [dictInsert, dictGet]
  | cons hd tl ih =>
    obtain ⟨k2, v2⟩ := hd
    by_cases h : k2 = k <;> simp [dictInsert, dictGet, h, ih]

theorem dictContains_insert_self {α : Type} (d : List (String × α))
    (k : String) (v : α) : dictContains (dictInsert d k v) k = true := by
  induction d with
  | nil => simp [dictInsert, dictContains]
  | cons hd tl ih =>
    obtain ⟨k2, v2⟩ := hd
    by_cases h : k2 = k <;> simp [dictInsert, dictContains, h, ih]

theorem dictContains_iff_mem_keys {α : Type} (d : List (String × α))
    (k : String) : dictContains d k = true ↔ k ∈ d.map Prod.fst := by
  induction d with
  | nil => simp [dictContains]
  | cons hd tl ih =>
    obtain ⟨k2, v2⟩ := hd
    by_cases h : k2 = k
    · simp [dictContains, h]
    · simp [dictContains, h, Ne.symm h, ih]

theorem mem_keys_insert_self {α : Type} (d : List (String × α)) (k : String)
    (v : α) : k ∈ (dictInsert d k v).map Prod.fst := by
  rw [← dictContains_iff_mem_keys]
  exact dictContains_insert_self d k v

theorem dictErase_of_not_contains {α : Type} (d : List (String × α))
    (k : String) (h : dictContains d k = false) : dictErase d k = d := by
  induction d with
  | nil => rfl
  | cons hd tl ih =>
    obtain ⟨k2, v2⟩ := hd
    simp [dictContains] at h
    simp [dictErase, h.1, ih h.2]

theorem updateLoop_program_state (valid : List String) (c : Config)
    (ps : List (String × PyVal)) (ig ow : Bool) :
    (Config.updateLoop valid c ps ig ow).2.program_state = c.program_state := by
  induction ps generalizing c with
  | nil => rfl
  | cons hd tl ih =>
    obtain ⟨key, value⟩ := hd
    simp only [Config.updateLoop]
    by_cases h1 : c.hasAttr key
    · by_cases h2 : key ∈ valid
      · by_cases h3 : key ∈ c.already_set
        · cases ig
          · cases ow <;> simp [h1, h2, h3, ih, Config.setField]
          · simp [h1, h2, h3, ih]
        · simp [h1, h2, h3, ih, Config.setField]
      · simp [h1, h2]
    · simp [h1]

theorem updateLoop_append (valid : List String) (c : Config)
    (ps1 ps2 : List (String × PyVal)) (ig ow : Bool) :
    Config.updateLoop valid c (ps1 ++ ps2) ig ow =
      (match Config.updateLoop valid c ps1 ig ow with
       | (none, c1) => Config.updateLoop valid c1 ps2 ig ow
       | (some e, c1) => (some e, c1)) := by
  induction ps1 generalizing c with
  | nil => rfl
  | cons hd tl ih =>
    obtain ⟨key, value⟩ := hd
    simp only [List.cons_append, Config.updateLoop]
    by_cases h1 : c.hasAttr key
    · by_cases h2 : key ∈ valid
      · by_cases h3 : key ∈ c.already_set
        · cases ig
          · cases ow <;> simp [h1, h2, h3, ih]
          · simp [h1, h2, h3, ih]
        · simp [h1, h2, h3, ih]
      · simp [h1, h2]
    · simp [h1]

/-! ### Claim theorems -/

/-- C1: `is_installed` returns a boolean for every package name: on
non-zero exit of the probe subprocess, empty captured output yields
`False` (not found) while non-empty captured output re-raises the failure;
on zero exit it returns `True` exactly when the captured output is
non-empty. -/
theorem C1_is_installed_probe (w : World) (s : St) (pkg_name : String) :
    ((w.run (pipShowCmd w pkg_name)).exitCode ≠ 0 ∧
        (w.run (pipShowCmd w pkg_name)).output = "" →
      (is_installed w s pkg_name).1 = .ok false) ∧
    ((w.run (pipShowCmd w pkg_name)).exitCode ≠ 0 ∧
        (w.run (pipShowCmd w pkg_name)).output ≠ "" →
      (is_installed w s pkg_name).1 = .error (.calledProcessError
        (pipShowCmd w pkg_name) (w.run (pipShowCmd w pkg_name)).output)) ∧
    ((w.run (pipShowCmd w pkg_name)).exitCode = 0 →
      (is_installed w s pkg_name).1 =
        .ok ((w.run (pipShowCmd w pkg_name)).output.length > 0)) := by
  have hlen : (w.run (pipShowCmd w pkg_name)).output ≠ "" →
      0 < (w.run (pipShowCmd w pkg_name)).output.length := by
    intro h2
    cases hout : (w.run (pipShowCmd w pkg_name)).output with
    | mk l =>
      cases l with
      | nil => exact absurd hout (by simpa using h2)
      | cons a as => simp [String.length]
  refine ⟨?_, ?_, ?_⟩
  · rintro ⟨h1, h2⟩
    simp only [is_installed, run_python, checkOutput, pipShowCmd] at h1 h2 ⊢
    rw [if_neg h1]
    simp [h2]
  · rintro ⟨h1, h2⟩
    have hl := hlen h2
    simp only [is_installed, run_python, checkOutput, pipShowCmd] at h1 hl ⊢
    rw [if_neg h1]
    simp [hl]
  · intro h1
    simp only [is_installed, run_python, checkOutput, pipShowCmd] at h1 ⊢
    rw [if_pos h1]

/-- C2: when the resolved package-definition script does not exist on
disk, `pip_install_editable` returns a null result and leaves every piece
of state, the editable-installs mapping included, unchanged. -/
theorem C2_install_editable_missing_script (w : World) (s : St)
    (path : String) (h : w.pathExists (resolveScript path) = false) :
    pip_install_editable w s path = (.ok none, s) := by
  simp [pip_install_editable, h]

/-- C4: `uninstall_editable` invokes the installer uninstall (it is the
logged command) and erases the name from the mapping; the erase is a no-op
when the name is absent, and a second call for the same name also
succeeds. -/
theorem C4_uninstall_editable_idempotent (w : World) (s : St) (pkg : String)
    (h : (w.run (pipUninstallCmd w pkg)).exitCode = 0) :
    uninstall_editable w s pkg =
      (.ok (), { editable_installs := dictErase s.editable_installs pkg,
                 trace := s.trace ++ [pipUninstallCmd w pkg] }) ∧
    (dictContains s.editable_installs pkg = false →
      dictErase s.editable_installs pkg = s.editable_installs) ∧
    (uninstall_editable w (uninstall_editable w s pkg).2 pkg).1 = .ok () := by
  have e1 : ∀ s2 : St, uninstall_editable w s2 pkg =
      (.ok (), { editable_installs := dictErase s2.editable_installs pkg,
                 trace := s2.trace ++ [pipUninstallCmd w pkg] }) := by
    intro s2
    simp only [uninstall_editable, run_python, checkOutput, pipUninstallCmd] at h ⊢
    rw [if_pos h]
  exact ⟨e1 s, fun hc => dictErase_of_not_contains _ _ hc, by simp [e1]⟩

/-- C7: for a schema field not yet set, `update` assigns it and the value
is readable; a second `update` for the same field without the overwrite
flag (and without the ignore flag) raises the re-assignment
`AttributeError` and changes nothing; a second `update` with overwrite
succeeds and the new value is visible. -/
theorem C7_config_set_once (c : Config) (key : String) (v1 v2 : PyVal)
    (hf : dictContains c.fields key = true) (hns : key ∉ c.already_set) :
    (c.update [(key, v1)] false false).1 = none ∧
    dictGet (c.update [(key, v1)] false false).2.fields key = some v1 ∧
    ((c.update [(key, v1)] false false).2.update [(key, v2)] false false =
      (some (.attributeError (reassignMsg key)),
       (c.update [(key, v1)] false false).2)) ∧
    ((c.update [(key, v1)] false false).2.update [(key, v2)] false true).1 =
      none ∧
    dictGet ((c.update [(key, v1)] false false).2.update [(key, v2)] false
      true).2.fields key = some v2 := by
  have hA : c.hasAttr key = true := by simp [Config.hasAttr, hf]
  have hV : key ∈ c.validNames := by
    rw [Config.validNames, ← dictContains_iff_mem_keys]; exact hf
  have e1 : c.update [(key, v1)] false false = (none, c.setField key v1) := by
    simp [Config.update, Config.updateLoop, hA, hV, hns]
  have hsetAS : (c.setField key v1).already_set = c.already_set ++ [key] := by
    simp [Config.setField, hns]
  have hA1 : (c.setField key v1).hasAttr key = true := by
    simp [Config.hasAttr, Config.setField, dictContains_insert_self]
  have hV1 : key ∈ (c.setField key v1).validNames := by
    rw [Config.validNames]
    exact mem_keys_insert_self c.fields key v1
  have hS1 : key ∈ (c.setField key v1).already_set := by
    rw [hsetAS]; simp
  have e2 : (c.setField key v1).update [(key, v2)] false false =
      (some (.attributeError (reassignMsg key)), c.setField key v1) := by
    simp [Config.update, Config.updateLoop, hA1, hV1, hS1]
  have e3 : (c.setField key v1).update [(key, v2)] false true =
      (none, (c.setField key v1).setField key v2) := by
    simp [Config.update, Config.updateLoop, hA1, hV1, hS1]
  rw [e1]
  refine ⟨rfl, ?_, ?_, ?_, ?_⟩
  · exact dictGet_insert_self c.fields key v1
  · exact e2
  · rw [e3]
  · rw [e3]
    exact dictGet_insert_self (c.setField key v1).fields key v2

/-- C8: for every key outside the schema `update` raises an
`AttributeError` whatever the flags are and leaves the object untouched;
`update` never changes the auxiliary `_program_state` store, and the
backing field `_program_state` itself is rejected. -/
theorem C8_config_unknown_key (c : Config) (key : String) (v : PyVal)
    (ig ow : Bool) (params : List (String × PyVal))
    (h : key ∉ c.validNames) :
    (∃ m, c.update [(key, v)] ig ow = (some (.attributeError m), c)) ∧
    (c.update params ig ow).2.program_state = c.program_state ∧
    Config.init.update [("_program_state", v)] ig ow =
      (some (.attributeError (noAssignMsg "_program_state")), Config.init) := by
  refine ⟨?_, updateLoop_program_state c.validNames c params ig ow, ?_⟩
  · by_cases hA : c.hasAttr key
    · exact ⟨noAssignMsg key, by simp [Config.update, Config.updateLoop, hA, h]⟩
    · exact ⟨noAttrMsg key, by simp [Config.update, Config.updateLoop, hA]⟩
  · have hA : Config.init.hasAttr "_program_state" = true := by decide
    have hV : "_program_state" ∉ Config.init.validNames := by decide
    simp [Config.update, Config.updateLoop, hA, hV]

/-- C10: `Config.update` is not atomic: params are processed in order, so
when a later item raises, the items before it stay assigned (the final
state is the one reached after them) while the failing item and the ones
after it leave no mark. -/
theorem C10_update_not_atomic (c : Config) (ps1 ps2 : List (String × PyVal))
    (key : String) (v : PyVal) (ig ow : Bool) (c1 : Config) (e : PyErr)
    (h1 : c.update ps1 ig ow = (none, c1))
    (h2 : Config.updateLoop c.validNames c1 [(key, v)] ig ow = (some e, c1)) :
    c.update (ps1 ++ (key, v) :: ps2) ig ow = (some e, c1) := by
  rw [Config.update] at h1 ⊢
  rw [updateLoop_append, h1]
  show Config.updateLoop c.validNames c1 ([(key, v)] ++ ps2) ig ow = (some e, c1)
  rw [updateLoop_append, h2]

/-- C3: when the resolved script exists, `pip_install_editable` extracts
the package name through the script report-name mode, uninstalls the name
first exactly when the probe reports it installed, then runs the editable
install, records name to script in the mapping and returns the name; the
command log shows the name query, the probe, the conditional uninstall and
the install, in that order. -/
theorem C3_install_editable_success (w : World) (s : St) (path : String)
    (pkg : String) (rest : List String)
    (hex : w.pathExists (resolveScript path) = true)
    (hname0 : (w.run (nameCmd (resolveScript path))).exitCode = 0)
    (hname1 : splitLines (w.run (nameCmd (resolveScript path))).output =
      pkg :: rest)
    (hshow : (w.run (pipShowCmd w pkg)).exitCode = 0 ∨
      (w.run (pipShowCmd w pkg)).output = "")
    (huninst : 0 < (w.run (pipShowCmd w pkg)).output.length →
      (w.run (pipUninstallCmd w pkg)).exitCode = 0)
    (hinst : (w.run (pipInstallECmd w (resolvePath path))).exitCode = 0) :
    pip_install_editable w s path =
      (.ok (some pkg),
       { editable_installs :=
           dictInsert (if 0 < (w.run (pipShowCmd w pkg)).output.length then
               dictErase s.editable_installs pkg
             else s.editable_installs) pkg (resolveScript path),
         trace := s.trace ++ [nameCmd (resolveScript path), pipShowCmd w pkg]
           ++ (if 0 < (w.run (pipShowCmd w pkg)).output.length then
                 [pipUninstallCmd w pkg]
               else []) ++ [pipInstallECmd w (resolvePath path)] }) := by
  have e_name : name_from_setup_py w s (resolveScript path) =
      (.ok pkg, { s with trace := s.trace ++ [nameCmd (resolveScript path)] }) := by
    simp only [name_from_setup_py, checkOutput, nameCmd] at hname0 hname1 ⊢
    rw [if_pos hname0]
    simp [hname1]
  have e_show : ∀ s2 : St, is_installed w s2 pkg =
      (.ok (decide (0 < (w.run (pipShowCmd w pkg)).output.length)),
       { s2 with trace := s2.trace ++ [pipShowCmd w pkg] }) := by
    intro s2
    rcases hshow with h0 | hempty
    · simp only [is_installed, run_python, checkOutput, pipShowCmd] at h0 ⊢
      rw [if_pos h0]
    · by_cases h0 : (w.run (pipShowCmd w pkg)).exitCode = 0
      · simp only [is_installed, run_python, checkOutput, pipShowCmd] at h0 ⊢
        rw [if_pos h0]
      · simp only [is_installed, run_python, checkOutput, pipShowCmd]
          at h0 hempty ⊢
        rw [if_neg h0]
        simp [hempty]
  have e_unin : ∀ s3 : St, 0 < (w.run (pipShowCmd w pkg)).output.length →
      uninstall_editable w s3 pkg =
        (.ok (), { editable_installs := dictErase s3.editable_installs pkg,
                   trace := s3.trace ++ [pipUninstallCmd w pkg] }) := by
    intro s3 hb
    have hu := huninst hb
    simp only [uninstall_editable, run_python, checkOutput, pipUninstallCmd]
      at hu ⊢
    rw [if_pos hu]
  have e_inst : ∀ s4 : St, run_python w s4 ("-m pip install -e " ++
      resolvePath path) =
      (.ok (w.run (pipInstallECmd w (resolvePath path))).output,
       { s4 with trace := s4.trace ++ [pipInstallECmd w (resolvePath path)] }) := by
    intro s4
    simp only [run_python, checkOutput, pipInstallECmd] at hinst ⊢
    rw [if_pos hinst]
  simp only [pip_install_editable]
  rw [if_neg (by simp [hex])]
  rw [e_name]
  simp only []
  rw [e_show]
  simp only []
  by_cases hb : 0 < (w.run (pipShowCmd w pkg)).output.length
  · rw [if_pos (by simpa using hb)]
    rw [e_unin _ hb]
    simp only []
    rw [e_inst]
    simp [hb, List.append_assoc]
  · rw [if_neg (by simpa using hb)]
    simp only []
    rw [e_inst]
    simp [hb, List.append_assoc]

/-- C5: the scoped editable-install acquisition installs, yields a handle
exposing path, script, name and installed state to the caller body, and on
every scope exit, whatever outcome the body produced (a raise included),
calls `uninstall_editable`; when the install returned the null or skip
result the body still runs but no uninstall is attempted. -/
theorem C5_install_context_scoped (w : World) (s s1 : St) (path : String)
    (body : PackageInstallHandle → St → Except PyErr Unit × St)
    (pkg : String) :
    (pip_install_editable w s path = (.ok (some pkg), s1) →
      pip_install_context w s path body =
        (match uninstall_editable w
            (body { path := resolvePath path,
                    script_name := resolveScript path,
                    pkg_name := some pkg, is_installed := true } s1).2 pkg with
         | (.error e, s3) => (.error e, s3)
         | (.ok _, s3) =>
           ((body { path := resolvePath path,
                    script_name := resolveScript path,
                    pkg_name := some pkg, is_installed := true } s1).1, s3))) ∧
    (pip_install_editable w s path = (.ok none, s1) →
      pip_install_context w s path body =
        body { path := resolvePath path, script_name := resolveScript path,
               pkg_name := none, is_installed := false } s1) := by
  constructor <;> intro h <;> simp [pip_install_context, h]

/-- C6: after `TempDir.cleanup` returns without raising, the owned path no
longer exists; when the recursive delete (with its permission-normalizing
retry handler) leaves the path present, `cleanup` raises `IOError` 17; and
the scoped enter/exit form runs `cleanup` exactly once after the body,
whether or not the body raised: the final filesystem is the one produced
by a single `cleanup` on the filesystem the body left, and the body
outcome survives whenever that `cleanup` does not raise. -/
theorem C6_tempdir_cleanup (rmtree : FS → String → FS) (name : String)
    (fs : FS) (body : String → FS → Except PyErr Unit × FS) :
    ((TempDir.cleanup rmtree name fs).1 = none →
      (TempDir.cleanup rmtree name fs).2 name = false) ∧
    (rmtree fs name name = true →
      TempDir.cleanup rmtree name fs =
        (some (.ioError 17 ("File exists: " ++ squo ++ name ++ squo)),
         rmtree fs name)) ∧
    ((TempDir.withScope rmtree name fs body).2 =
      (TempDir.cleanup rmtree name (body name fs).2).2) ∧
    ((TempDir.cleanup rmtree name (body name fs).2).1 = none →
      (TempDir.withScope rmtree name fs body).1 = (body name fs).1) := by
  refine ⟨?_, ?_, ?_, ?_⟩
  · intro h
    by_cases hc : rmtree fs name name = true
    · simp [TempDir.cleanup, hc] at h
    · simp only [TempDir.cleanup]
      rw [if_neg hc]
      simpa using hc
  · intro h
    simp [TempDir.cleanup, h]
  · rcases hq : TempDir.cleanup rmtree name (body name fs).2 with ⟨e, fs2⟩
    cases e <;> simp [TempDir.withScope, hq]
  · intro h
    rcases hq : TempDir.cleanup rmtree name (body name fs).2 with ⟨e, fs2⟩
    rw [hq] at h
    cases e with
    | none => simp [TempDir.withScope, hq]
    | some e2 => simp at h

/-- C9: the version-report parser returns the pair (normalized, raw): with
no `Normalizing` notice on the first line, or a single output line, both
components are the final line; otherwise the normalized component is the
final line and the raw component is the piece of the first line between
`Normalizing` and ` to `, stripped of surrounding double or single
quotes. -/
theorem C9_version_report (w : World) (s : St) (script : String)
    (h0 : (w.run (versionCmd script)).exitCode = 0)
    (h1 : splitLines (w.run (versionCmd script)).output ≠ []) :
    (version_from_setup_py w s script).1 =
      .ok (reportedVersionSpec (splitLines (w.run (versionCmd script)).output)) := by
  cases hq : (splitLines (w.run (versionCmd script)).output).getLast? with
  | none => exact absurd (List.getLast?_eq_none_iff.mp hq) h1
  | some nv =>
    have hd : (splitLines (w.run (versionCmd script)).output).getLastD "" = nv := by
      rw [List.getLastD_eq_getLast?, hq]
      rfl
    simp only [version_from_setup_py, checkOutput, versionCmd,
      reportedVersionSpec] at h0 hq hd ⊢
    rw [if_pos h0]
    simp only []
    rw [hq, hd]
    simp only []
    split_ifs with hcc <;> rfl

/-! ### Witnesses -/

/-- Witness for C1: in `w0` the probe exits non-zero with empty output and
`is_installed` returns false. -/
theorem C1_is_installed_probe_witness :
    (is_installed w0 st0 "mypkg").1 = .ok false :=
  (C1_is_installed_probe w0 st0 "mypkg").1 ⟨by decide, rfl⟩

/-- Witness for C2: in `w0` no script exists and the install is the null
result with untouched state. -/
theorem C2_install_editable_missing_script_witness :
    pip_install_editable w0 st0 "pkg" = (.ok none, st0) :=
  C2_install_editable_missing_script w0 st0 "pkg" rfl

/-- Witness for C3: in `w3` the editable install of `pkg` records the
mapping entry and logs the name query, the probe and the install. -/
theorem C3_install_editable_success_witness :
    pip_install_editable w3 st0 "pkg" =
      (.ok (some "mypkg"),
       { editable_installs := [("mypkg", "pkg/setup.py")],
         trace := ["python pkg/setup.py --name",
                   "venv/bin/python -m pip show mypkg",
                   "venv/bin/python -m pip install -e pkg"] }) := by
  have h := C3_install_editable_success w3 st0 "pkg" "mypkg" [] rfl (by decide)
    (by decide) (Or.inr rfl) (by decide) (by decide)
  refine h.trans ?_
  rw [Prod.mk.injEq]
  exact ⟨rfl, by decide⟩

/-- Witness for C4: in `w3` a double uninstall of an absent name
succeeds. -/
theorem C4_uninstall_editable_idempotent_witness :
    (uninstall_editable w3 (uninstall_editable w3 st0 "mypkg").2 "mypkg").1 =
      .ok () :=
  (C4_uninstall_editable_idempotent w3 st0 "mypkg" (by decide)).2.2

/-- Witness for C5: in `w0` the install is the skip result and the scope
runs the body without any uninstall. -/
theorem C5_install_context_scoped_witness :
    pip_install_context w0 st0 "pkg" (fun _ s => (.ok (), s)) = (.ok (), st0) :=
  ((C5_install_context_scoped w0 st0 st0 "pkg" (fun _ s => (.ok (), s))
    "x").2 rfl).trans rfl

/-- Witness for C6: with the concrete delete oracle the cleaned path is
gone and the scoped form returns the body outcome. -/
theorem C6_tempdir_cleanup_witness :
    (TempDir.cleanup rmtree0 "d" fs0).2 "d" = false ∧
    (TempDir.withScope rmtree0 "d" fs0 (fun _ fs => (.ok (), fs))).1 = .ok () := by
  have h := C6_tempdir_cleanup rmtree0 "d" fs0 (fun _ fs => (.ok (), fs))
  exact ⟨h.1 rfl, h.2.2.2 rfl⟩

/-- Witness for C7: the `invert` field of a fresh config is assignable
once and readable. -/
theorem C7_config_set_once_witness :
    (Config.init.update [("invert", PyVal.vBool true)] false false).1 = none ∧
    dictGet (Config.init.update [("invert", PyVal.vBool true)] false
      false).2.fields "invert" = some (PyVal.vBool true) := by
  have h := C7_config_set_once Config.init "invert" (PyVal.vBool true)
    (PyVal.vBool false) (by decide) (by decide)
  exact ⟨h.1, h.2.1⟩

/-- Witness for C8: assigning the unknown key `unknown` on a fresh config
raises an `AttributeError` and changes nothing. -/
theorem C8_config_unknown_key_witness :
    ∃ m, Config.init.update [("unknown", PyVal.vBool true)] false false =
      (some (PyErr.attributeError m), Config.init) := by
  have h := C8_config_unknown_key Config.init "unknown" (PyVal.vBool true)
    false false [] (by decide)
  exact h.1

/-- Witness for C9: a single-line version report yields the same raw and
normalized versions. -/
theorem C9_version_report_witness :
    (version_from_setup_py w9 st0 "setup.py").1 = .ok ("1.2.3", "1.2.3") := by
  have h := C9_version_report w9 st0 "setup.py" rfl (by decide)
  have h2 : reportedVersionSpec (splitLines
      (w9.run (versionCmd "setup.py")).output) = ("1.2.3", "1.2.3") := by decide
  rw [h, h2]

/-- Witness for C10: re-assigning `invert` in the middle of an `update`
raises and keeps the first assignment while the later `verbose` item is
not applied. -/
theorem C10_update_not_atomic_witness :
    Config.init.update ([("invert", PyVal.vBool true)] ++
        ("invert", PyVal.vBool false) :: [("verbose", PyVal.vInt 1)])
      false false =
      (some (PyErr.attributeError (reassignMsg "invert")),
       (Config.init.update [("invert", PyVal.vBool true)] false false).2) :=
  C10_update_not_atomic Config.init [("invert", PyVal.vBool true)]
    [("verbose", PyVal.vInt 1)] "invert" (PyVal.vBool false) false false
    (Config.init.update [("invert", PyVal.vBool true)] false false).2
    (PyErr.attributeError (reassignMsg "invert")) (by decide) (by decide)
